import Mathlib

/-
Verification development for the obsidian-onlyoffice plugin (src/main.ts).

Strings are modelled as lists of characters (abbrev Str).  The pieces of the
program that the claims are about are embedded as executable Lean functions:
the key/file registry and legacy-key pattern of the callback receiver, the
callback POST handler, the static file server request routing, the editor
configuration build and token-appending step, the create-new filename logic,
and the port binding loops of both local servers.  External JavaScript
builtins used by the code (decodeURIComponent, encodeURIComponent, parseInt,
number rendering) are modelled faithfully below; truly external effects
(HTTP fetch, the vault, URL query parsing by the WHATWG URL class) are
modelled as environment functions.
-/

namespace OnlyOffice

/-- Strings as character lists. -/
abbrev Str := List Char

/-- Decimal digit test, models the regex class backslash-d over ASCII. -/
def isDigitC (c : Char) : Bool := decide ('0' ≤ c ∧ c ≤ '9')

/-- Character class of the regex [a-z0-9]. -/
def isLowerAlnum (c : Char) : Bool := decide (('a' ≤ c ∧ c ≤ 'z') ∨ ('0' ≤ c ∧ c ≤ '9'))

/-- The regex dot: any character except a line terminator. -/
def isDotChar (c : Char) : Bool := decide (c ≠ '\n' ∧ c ≠ '\r')

/-- Value of one hexadecimal digit, used by the percent-decoding model. -/
def hexVal (c : Char) : Option Nat :=
  if '0' ≤ c ∧ c ≤ '9' then some (c.toNat - '0'.toNat)
  else if 'a' ≤ c ∧ c ≤ 'f' then some (c.toNat - 'a'.toNat + 10)
  else if 'A' ≤ c ∧ c ≤ 'F' then some (c.toNat - 'A'.toNat + 10)
  else none

/-- Token stream of decodeURIComponent: literal characters and percent-escaped bytes. -/
inductive PctTok where
  | lit (c : Char)
  | byte (b : Nat)
deriving DecidableEq

/-- Scan a string into percent tokens; none on a malformed percent escape. -/
def pctTokens : Str → Option (List PctTok)
  | [] => some []
  | c :: rest =>
    if c = '%' then
      match rest with
      | h1 :: h2 :: rest2 =>
        match hexVal h1, hexVal h2 with
        | some a, some b => (pctTokens rest2).map (fun ts => PctTok.byte (16 * a + b) :: ts)
        | _, _ => none
      | _ => none
    else (pctTokens rest).map (fun ts => PctTok.lit c :: ts)

/-- UTF-8 continuation byte test. -/
def contB (b : Nat) : Bool := decide (128 ≤ b ∧ b < 192)

/-- Strict UTF-8 decoding of the percent token stream (fuel is the token count;
one token or more is consumed per step, so fuel equal to the length suffices).
Rejects overlong encodings, surrogates and out-of-range code points, as the
ECMAScript Decode algorithm does. -/
def utf8TokensAux : Nat → List PctTok → Option Str
  | _, [] => some []
  | 0, _ :: _ => none
  | f + 1, PctTok.lit c :: ts => (utf8TokensAux f ts).map (fun cs => c :: cs)
  | f + 1, PctTok.byte b :: ts =>
    if b < 128 then (utf8TokensAux f ts).map (fun cs => Char.ofNat b :: cs)
    else if 194 ≤ b ∧ b ≤ 223 then
      match ts with
      | PctTok.byte b2 :: ts2 =>
        if contB b2 then
          (utf8TokensAux f ts2).map (fun cs => Char.ofNat ((b - 192) * 64 + (b2 - 128)) :: cs)
        else none
      | _ => none
    else if 224 ≤ b ∧ b ≤ 239 then
      match ts with
      | PctTok.byte b2 :: PctTok.byte b3 :: ts2 =>
        if (if b = 224 then decide (160 ≤ b2 ∧ b2 ≤ 191)
            else if b = 237 then decide (128 ≤ b2 ∧ b2 ≤ 159)
            else contB b2) ∧ contB b3 then
          (utf8TokensAux f ts2).map
            (fun cs => Char.ofNat ((b - 224) * 4096 + (b2 - 128) * 64 + (b3 - 128)) :: cs)
        else none
      | _ => none
    else if 240 ≤ b ∧ b ≤ 244 then
      match ts with
      | PctTok.byte b2 :: PctTok.byte b3 :: PctTok.byte b4 :: ts2 =>
        if (if b = 240 then decide (144 ≤ b2 ∧ b2 ≤ 191)
            else if b = 244 then decide (128 ≤ b2 ∧ b2 ≤ 143)
            else contB b2) ∧ contB b3 ∧ contB b4 then
          (utf8TokensAux f ts2).map
            (fun cs =>
              Char.ofNat ((b - 240) * 262144 + (b2 - 128) * 4096 + (b3 - 128) * 64 + (b4 - 128)) :: cs)
        else none
      | _ => none
    else none

/-- Model of the JavaScript builtin decodeURIComponent; none models a thrown
URIError (malformed percent escape or invalid UTF-8). -/
def percentDecode (s : Str) : Option Str :=
  match pctTokens s with
  | none => none
  | some ts => utf8TokensAux ts.length ts

/-- Unreserved characters of encodeURIComponent. -/
def isUnreservedURI (c : Char) : Bool :=
  decide (('A' ≤ c ∧ c ≤ 'Z') ∨ ('a' ≤ c ∧ c ≤ 'z') ∨ ('0' ≤ c ∧ c ≤ '9') ∨
    c = '-' ∨ c = '_' ∨ c = '.' ∨ c = '!' ∨ c = '~' ∨ c = '*' ∨ c = Char.ofNat 39 ∨
    c = '(' ∨ c = ')')

/-- UTF-8 bytes of one character. -/
def utf8Bytes (c : Char) : List Nat :=
  let n := c.toNat
  if n < 128 then [n]
  else if n < 2048 then [192 + n / 64, 128 + n % 64]
  else if n < 65536 then [224 + n / 4096, 128 + (n / 64) % 64, 128 + n % 64]
  else [240 + n / 262144, 128 + (n / 4096) % 64, 128 + (n / 64) % 64, 128 + n % 64]

/-- Uppercase hexadecimal digit. -/
def hexUpper (d : Nat) : Char := if d < 10 then Char.ofNat (48 + d) else Char.ofNat (55 + d)

/-- Model of the JavaScript builtin encodeURIComponent. -/
def encodeURIComponent (s : Str) : Str :=
  s.flatMap (fun c =>
    if isUnreservedURI c then [c]
    else (utf8Bytes c).flatMap (fun b => ['%', hexUpper (b / 16), hexUpper (b % 16)]))

/-- Decimal rendering of a natural number, models JavaScript number-to-string
concatenation for nonnegative integers. -/
def natToStr (n : Nat) : Str := Nat.toDigits 10 n

/-- Base-36 digit, lowercase as produced by Number.prototype.toString with radix 36. -/
def toBase36Digit (d : Nat) : Char := if d < 10 then Char.ofNat (48 + d) else Char.ofNat (87 + d)

/-- Helper for base-36 rendering; fuel bounds the number of divisions. -/
def toBase36Aux : Nat → Nat → Str → Str
  | 0, _, acc => acc
  | f + 1, n, acc =>
    if n = 0 then acc else toBase36Aux f (n / 36) (toBase36Digit (n % 36) :: acc)

/-- Model of hash.toString(36) for a natural number. -/
def toBase36 (n : Nat) : Str := if n = 0 then ['0'] else toBase36Aux (n + 1) n []

/-
Key/File Registry (src/main.ts: keyFileMap, onLoadFile lines 274-281,
startCallbackServer lines 1681-1695).
-/

/-- The in-memory key-to-path registry.  The JavaScript object assignment
keyFileMap[key] = path is modelled by consing, and lookup takes the most
recent binding, which matches property-assignment overwrite semantics. -/
def KeyFileMap := List (Str × Str)

/-- Models this.plugin.keyFileMap[uniqueKey] = effectiveFile.path. -/
def register (m : KeyFileMap) (k p : Str) : KeyFileMap := (k, p) :: m

/-- Models the read this.keyFileMap[key] (undefined becomes none). -/
def lookupKey (m : KeyFileMap) (k : Str) : Option Str :=
  match m.find? (fun e => e.1 = k) with
  | some e => some e.2
  | none => none

/-- Apply a list of later registrations (document opens) in order. -/
def applyRegisters (rs : List (Str × Str)) (m : KeyFileMap) : KeyFileMap :=
  rs.foldl (fun acc e => register acc e.1 e.2) m

/-- The literal head of the legacy key pattern. -/
def obsidianMarker : Str := "obsidian_".toList

/-- Matcher for the anchored tail regex part after the lazy group:
underscore, one or more decimal digits, underscore, one or more [a-z0-9],
end of string. -/
def tailMatch (r : Str) : Bool :=
  match r with
  | [] => false
  | c :: w =>
    decide (c = '_') && (List.range (w.length + 1)).any (fun j =>
      decide (1 ≤ j) && (w.take j).all isDigitC &&
      (match w.drop j with
       | c2 :: a => decide (c2 = '_') && (!a.isEmpty) && a.all isLowerAlnum
       | [] => false))

/-- Models the legacy fallback of the callback receiver (lines 1689-1694):
match key against the anchored regex with prefix obsidian underscore, a lazy
dot group, digits, and a lowercase alphanumeric run, then decodeURIComponent
of the captured group.  The lazy group takes the least length whose remainder
matches the tail.  A decodeURIComponent throw (modelled by none) is caught by
the outer handler, which skips the save, so none is the faithful outcome. -/
def legacyDecode (k : Str) : Option Str :=
  if k.take 9 = obsidianMarker then
    let s := k.drop 9
    match (List.range (s.length + 1)).find? (fun i =>
        decide (1 ≤ i) && (s.take i).all isDotChar && tailMatch (s.drop i)) with
    | some i => percentDecode (s.take i)
    | none => none
  else none

/-- Key resolution of the callback receiver (lines 1684-1695): the in-memory
registry first, then the legacy pattern. -/
def resolveKey (m : KeyFileMap) (k : Str) : Option Str :=
  match lookupKey m k with
  | some p => some p
  | none => legacyDecode k

/-
Document key generation (onLoadFile lines 274-281).
-/

/-- The rolling hash: hash = (hash * 31 + charCodeAt(i)) >>> 0 folded over the
string, starting from 0, with unsigned 32-bit wraparound. -/
def jsHash (s : Str) : Nat := s.foldl (fun h c => (h * 31 + c.toNat) % 4294967296) 0

/-- The hashed base string: path, vertical bar, mtime, vertical bar, random id. -/
def baseForKey (path : Str) (mtime : Nat) (rid : Str) : Str :=
  path ++ '|' :: natToStr mtime ++ '|' :: rid

/-- Models uniqueKey = the literal oo underscore, hash.toString(36), an
underscore, and the random id. -/
def genKey (path : Str) (mtime : Nat) (rid : Str) : Str :=
  "oo_".toList ++ toBase36 (jsHash (baseForKey path mtime rid)) ++ '_' :: rid

/-
Callback Receiver (startCallbackServer, lines 1612-1805).
-/

/-- JavaScript whitespace characters skipped by parseInt (ASCII subset). -/
def isJsWS (c : Char) : Bool := decide (c = ' ' ∨ c = '\t' ∨ c = '\n' ∨ c = '\r')

/-- Numeric value of a run of decimal digits. -/
def decValue (ds : Str) : Nat := ds.foldl (fun acc c => acc * 10 + (c.toNat - 48)) 0

/-- Numeric value of a run of hexadecimal digits. -/
def hexValue (ds : Str) : Nat := ds.foldl (fun acc c => acc * 16 + ((hexVal c).getD 0)) 0

/-- Unsigned part of parseInt: optional 0x or 0X prefix selects hexadecimal,
otherwise the longest leading run of decimal digits; none models NaN. -/
def parseIntNoSign (s : Str) : Option Nat :=
  match s with
  | '0' :: x :: rest =>
    if x = 'x' ∨ x = 'X' then
      let ds := rest.takeWhile (fun c => (hexVal c).isSome)
      if ds = [] then none else some (hexValue ds)
    else
      some (decValue (('0' :: x :: rest).takeWhile isDigitC))
  | _ =>
    let ds := s.takeWhile isDigitC
    if ds = [] then none else some (decValue ds)

/-- Model of the JavaScript builtin parseInt on a string (radix argument
omitted): skip leading whitespace, optional sign, hexadecimal prefix or
decimal digits; none models NaN. -/
def parseIntJS (s : Str) : Option Int :=
  match s.dropWhile isJsWS with
  | '-' :: rest => (parseIntNoSign rest).map (fun n => -(n : Int))
  | '+' :: rest => (parseIntNoSign rest).map (fun n => (n : Int))
  | rest => (parseIntNoSign rest).map (fun n => (n : Int))

/-- Models const status = parseInt(data.status) || 0 (line 1664): a missing
field parses as NaN, and NaN || 0 gives 0. -/
def coerceStatus (status : Option Str) : Int :=
  match status with
  | none => 0
  | some s => (parseIntJS s).getD 0

/-- JavaScript string truthiness of an optional field: present and nonempty. -/
def truthy (s : Option Str) : Bool :=
  match s with
  | some v => !v.isEmpty
  | none => false

/-- The fields of the parsed callback body that the handler reads.  The
status field is kept in its textual form (numbers are rendered); none models
an absent field. -/
structure ParsedBody where
  status : Option Str
  url : Option Str
  key : Option Str

/-- Outcome of body parsing (lines 1645-1660): JSON.parse succeeded, or it
threw and the body contained both substrings url= and ampersand so it was
form-decoded, or neither, in which case the handler acknowledges at once. -/
inductive BodyParse where
  | json (d : ParsedBody)
  | form (d : ParsedBody)
  | unparsed

/-- The HTTP reply of the callback server: status code, the numeric error
field of the JSON body, and whether the info field is present. -/
structure CbResponse where
  status : Nat
  errorField : Nat
  hasInfo : Bool
deriving DecidableEq

/-- The acknowledgement written on every POST /callback: 200 with error 0. -/
def ackResp : CbResponse := { status := 200, errorField := 0, hasInfo := false }

/-- Environment of one callback: the registry, the vault (path to bytes, none
when no file exists at the path), the fetch of a URL by requestUrl (some
bytes exactly when the response status is 200 with an arrayBuffer), and the
key query parameter extraction new URL(u).searchParams.get(KEY) with none
covering both absence and a URL-parse throw. -/
structure CallbackEnv where
  keyFileMap : KeyFileMap
  vault : Str → Option (List Nat)
  fetch : Str → Option (List Nat)
  urlKey : Str → Option Str

/-- Result of handling one callback request: the reply and the vault after. -/
structure CbResult where
  response : CbResponse
  vault : Str → Option (List Nat)

/-- Overwrite of one vault file, models app.vault.modifyBinary. -/
def vaultWrite (v : Str → Option (List Nat)) (p : Str) (bytes : List Nat) :
    Str → Option (List Nat) :=
  fun q => if q = p then some bytes else v q

/-- The body-processing logic of POST /callback (lines 1662-1732), after the
body has been parsed into data.  Every branch replies 200 with error 0; the
file write happens only on the save path where the coerced status is 2, 6 or
0, the url field is truthy, a truthy key is found (the key field, else the
key query parameter of the url), the key resolves through the registry or
the legacy pattern, the resolved path names an existing vault file, and the
fetch succeeds with status 200. -/
def processData (env : CallbackEnv) (d : ParsedBody) : CbResult :=
  let status := coerceStatus d.status
  if (status = 2 ∨ status = 6 ∨ status = 0) ∧ truthy d.url = true then
    let url := d.url.getD []
    let key := if truthy d.key then d.key else env.urlKey url
    if truthy key = true then
      match resolveKey env.keyFileMap (key.getD []) with
      | some filePath =>
        if (env.vault filePath).isSome then
          match env.fetch url with
          | some bytes => { response := ackResp, vault := vaultWrite env.vault filePath bytes }
          | none => { response := ackResp, vault := env.vault }
        else { response := ackResp, vault := env.vault }
      | none => { response := ackResp, vault := env.vault }
    else { response := ackResp, vault := env.vault }
  else { response := ackResp, vault := env.vault }

/-- Handling of the whole POST /callback body (lines 1639-1739): an
unparsable body is acknowledged at once with no effect; a JSON or
form-decoded body goes through processData. -/
def handleCallback (env : CallbackEnv) (b : BodyParse) : CbResult :=
  match b with
  | BodyParse.json d => processData env d
  | BodyParse.form d => processData env d
  | BodyParse.unparsed => { response := ackResp, vault := env.vault }

/-- A non-OPTIONS request to the callback server: POST /callback with a body,
or any other method or path. -/
inductive CbRequest where
  | postCallback (b : BodyParse)
  | other

/-- Full request dispatch of the callback server (lines 1639-1744): other
requests get 200 with error 0 and an info field. -/
def callbackServerRespond (env : CallbackEnv) (r : CbRequest) : CbResult :=
  match r with
  | CbRequest.postCallback b => handleCallback env b
  | CbRequest.other =>
    { response := { status := 200, errorField := 0, hasInfo := true }, vault := env.vault }

/-
Static File and Page Server (startInternalServer, lines 1432-1609).
-/

/-- Split a POSIX path string at slashes. -/
def splitSlash : Str → List Str
  | [] => [[]]
  | c :: rest =>
    if c = '/' then [] :: splitSlash rest
    else
      match splitSlash rest with
      | s :: ss => (c :: s) :: ss
      | [] => [[c]]

/-- Node path.join style normalization of the segments of an absolute path:
empty and single-dot segments vanish, a double-dot segment pops the previous
one (clamping at the filesystem root, as path.join does for absolute paths),
everything else is kept. -/
def normSegs (segs : List Str) : List Str :=
  segs.foldl (fun acc seg =>
    if seg = [] ∨ seg = ['.'] then acc
    else if seg = ['.', '.'] then acc.dropLast
    else acc ++ [seg]) []

/-- Models path.join(root, rel) for an absolute, already normalized root
given as segments and a relative POSIX path string. -/
def joinNorm (root : List Str) (rel : Str) : List Str :=
  normSegs (root ++ splitSlash rel)

/-- Models reqPath.replace of the leading-slash regex with the empty string,
which removes at most one leading slash. -/
def stripLeadSlash (s : Str) : Str :=
  match s with
  | c :: rest => if c = '/' then rest else c :: rest
  | [] => []

/-- Models req.url.split at the question mark taking the first part, with the
fallback to a single slash when the result is empty (line 1477). -/
def stripQuery (url : Str) : Str :=
  let s := url.takeWhile (fun c => c ≠ '?')
  if s = [] then ['/'] else s

/-- Containment check stated by the specification: the normalized root is a
prefix of the normalized target.  The source contains no such check; this
definition exists to state the traversal claim. -/
def isWithin (root p : List Str) : Bool := decide (p.take root.length = root)

/-- Environment of the static server: the absolute vault root and resolved
plugin root as normalized segment lists, and the filesystem, mapping a
normalized absolute path to the bytes of a regular file (none when
fs.existsSync fails or the entry is not a file). -/
structure ServerEnv where
  vaultPath : List Str
  pluginPath : List Str
  fs : List Str → Option (List Nat)

/-- Reply of the static server to one non-OPTIONS request. -/
inductive StaticResponse where
  | createNewPage
  | saveAsPage
  | fileOk (bytes : List Nat)
  | notFound
  | internalError
deriving DecidableEq

/-- The normalized filesystem target that the fallthrough branch of the
server derives from a request URL for a given root: query stripped,
percent-decoded, one leading slash removed, joined onto the root.  none
models a decodeURIComponent throw. -/
def requestTarget (root : List Str) (url : Str) : Option (List Str) :=
  match percentDecode (stripQuery url) with
  | some p => some (joinNorm root (stripLeadSlash p))
  | none => none

/-- The request handler of the internal HTTP server (lines 1476-1568) for
non-OPTIONS requests: the create-new and save-as API pages, the editor shell
and embedded page read from the plugin directory, and otherwise a raw file
lookup joining the decoded path first onto the vault root and then onto the
plugin root, serving the bytes when a regular file exists there, else 404.
A decodeURIComponent throw is caught by the surrounding try and answered
with 500. -/
def serveStatic (env : ServerEnv) (url : Str) : StaticResponse :=
  match percentDecode (stripQuery url) with
  | none => StaticResponse.internalError
  | some reqPath =>
    if reqPath = "/api/createNew".toList then StaticResponse.createNewPage
    else if reqPath = "/api/saveAs".toList then StaticResponse.saveAsPage
    else if reqPath = "/".toList ∨ reqPath = "/editor.html".toList then
      match env.fs (env.pluginPath ++ ["editor.html".toList]) with
      | some bytes => StaticResponse.fileOk bytes
      | none => StaticResponse.notFound
    else if reqPath = "/embedded-editor.html".toList then
      match env.fs (env.pluginPath ++ ["embedded-editor.html".toList]) with
      | some bytes => StaticResponse.fileOk bytes
      | none => StaticResponse.notFound
    else
      match env.fs (joinNorm env.vaultPath (stripLeadSlash reqPath)) with
      | some bytes => StaticResponse.fileOk bytes
      | none =>
        match env.fs (joinNorm env.pluginPath (stripLeadSlash reqPath)) with
        | some bytes => StaticResponse.fileOk bytes
        | none => StaticResponse.notFound

/-
Config Builder and Token Signer (loadDirectOnlyOfficeInterface, lines
424-511, and the init script, lines 522-599).
-/

/-- JavaScript String.prototype.trim restricted to the ASCII whitespace the
model carries. -/
def trimJS (s : Str) : Str :=
  ((s.dropWhile isJsWS).reverse.dropWhile isJsWS).reverse

/-- The four URLs of the editor configuration that the request token is
appended to: document.url, editorConfig.callbackUrl, createUrl, saveAsUrl. -/
structure UrlSet where
  documentUrl : Str
  callbackUrl : Str
  createUrl : Str
  saveAsUrl : Str
deriving DecidableEq

/-- Models the append closure of line 489: add the token query parameter,
with an ampersand separator when the URL already holds a question mark. -/
def appendTokenParam (tok : Str) (u : Str) : Str :=
  u ++ (if u.contains '?' then ['&'] else ['?']) ++ "token=".toList ++ encodeURIComponent tok

/-- Apply the request token to all four URLs (lines 490-493). -/
def appendAllUrls (tok : Str) (b : UrlSet) : UrlSet :=
  { documentUrl := appendTokenParam tok b.documentUrl,
    callbackUrl := appendTokenParam tok b.callbackUrl,
    createUrl := appendTokenParam tok b.createUrl,
    saveAsUrl := appendTokenParam tok b.saveAsUrl }

/-- The URLs of baseConfig as built on the host (lines 425-473): the document
URL and callback URL are passed in, createUrl carries a fileType query
parameter, saveAsUrl does not. -/
def mkBaseUrls (localServerPort : Nat) (documentUrl callbackUrl documentType : Str) : UrlSet :=
  { documentUrl := documentUrl,
    callbackUrl := callbackUrl,
    createUrl := "http://127.0.0.1:".toList ++ natToStr localServerPort ++
      "/api/createNew?fileType=".toList ++ documentType,
    saveAsUrl := "http://127.0.0.1:".toList ++ natToStr localServerPort ++ "/api/saveAs".toList }

/-- The editor configuration as far as the claims observe it: its URLs, the
token property set by the init script, and whether the event handlers have
been wired in. -/
structure EditorCfg where
  urls : UrlSet
  token : Option Str
  eventsWired : Bool

/-- The claim set of the signed configuration token: document and
editorConfig sections, of which the URLs are what the ordering contract is
about (the issued-at timestamp is not modelled). -/
structure JwtPayload where
  urls : UrlSet

/-- Outcome of the signing section (lines 478-511): the configuration after
any URL mutation, and the payload captured at the moment SignJWT ran (none
when no secret is configured, so nothing was signed). -/
structure SignOutcome where
  config : EditorCfg
  signedPayload : Option JwtPayload

/-- The settings fields the signing section reads. -/
structure SignSettings where
  jwtSecret : Str
  useRequestToken : Option Bool

/-- Models lines 478-511: when the secret is truthy and its trim is nonempty,
first append the request token to the four URLs (unless useRequestToken is
literally false), then build the payload from the mutated baseConfig and
sign it.  Without a secret no token is appended and nothing is signed. -/
def buildAndSign (s : SignSettings) (requestToken : Str) (base : UrlSet) : SignOutcome :=
  if s.jwtSecret ≠ [] ∧ trimJS s.jwtSecret ≠ [] then
    let urls := if s.useRequestToken ≠ some false then appendAllUrls requestToken base else base
    { config := { urls := urls, token := none, eventsWired := false },
      signedPayload := some { urls := urls } }
  else
    { config := { urls := base, token := none, eventsWired := false }, signedPayload := none }

/-- Models the init script executed in the webview (lines 546-593): it parses
the base config back, sets config.token to the signed token and wires the
event handlers, mutating no URL. -/
def applyInitScript (o : SignOutcome) (signedToken : Option Str) : EditorCfg :=
  { o.config with token := signedToken, eventsWired := true }

/-
Create-new document naming (openNewDocument, lines 1308-1429).
-/

/-- ASCII lowercasing, models the case-insensitive regex flag. -/
def toLowerJS (c : Char) : Char :=
  if 'A' ≤ c ∧ c ≤ 'Z' then Char.ofNat (c.toNat + 32) else c

/-- Models extRegex.test(name) where extRegex is built at line 1361 from the
template literal with a backslash-dot: the template literal reduces the
escape to a plain dot, so the compiled regex is dot, the extension, end
anchor, case-insensitive — the leading dot matches ANY non-newline
character, not only a literal dot. -/
def extRegexTest (name ext : Str) : Bool :=
  let n := name.length
  let e := ext.length
  decide (e + 1 ≤ n) &&
  decide ((name.drop (n - e)).map toLowerJS = ext.map toLowerJS) &&
  ((name.drop (n - e - 1)).take 1).all isDotChar

/-- Models name.replace(extRegex, the empty string) at line 1364: when the
regex matches, the matched wildcard character and extension are removed. -/
def stripExtJS (name ext : Str) : Str :=
  if extRegexTest name ext then name.take (name.length - ext.length - 1) else name

/-- The conflict candidate built at lines 1365-1366: base, space, open paren,
the counter, close paren, dot, extension. -/
def candidateName (base ext : Str) (i : Nat) : Str :=
  base ++ ' ' :: '(' :: natToStr i ++ ')' :: '.' :: ext

/-- The conflict loop of lines 1365-1366, with fuel standing in for the
unbounded while loop; vault.length + 1 fuel always suffices because the
candidates are pairwise distinct. -/
def findFreeAux (vault : List Str) (base ext : Str) : Nat → Nat → Str
  | i, 0 => candidateName base ext i
  | i, fuel + 1 =>
    let c := candidateName base ext i
    if c ∈ vault then findFreeAux vault base ext (i + 1) fuel else c

/-- Models the characters removed by the sanitizing replace at line 1359. -/
def isIllegalNameChar (c : Char) : Bool :=
  decide (c = '\\' ∨ c = '/' ∨ c = ':' ∨ c = '*' ∨ c = '?' ∨ c = '"' ∨
    c = '<' ∨ c = '>' ∨ c = '|')

/-- Extension appending and conflict resolution of lines 1361-1368, applied
to the sanitized requested name: append a dot and the chosen type unless the
(buggy, wildcard-dot) extension regex already matches, then, when the name
collides with an existing vault entry, count suffixes up from 1 until a free
candidate is found. -/
def finalizeNewName (vault : List Str) (requested ext : Str) : Str :=
  let name := if extRegexTest requested ext then requested else requested ++ '.' :: ext
  if name ∈ vault then
    findFreeAux vault (stripExtJS name ext) ext 1 (vault.length + 1)
  else name

/-- The full prompted naming pipeline of openNewDocument (lines 1358-1368):
sanitize and trim the typed name, abort on an empty result, then finalize.
none models the Invalid-name notice path, where no file is created. -/
def newDocumentName (vault : List Str) (typed ext : Str) : Option Str :=
  let cleaned := trimJS (typed.filter (fun c => !isIllegalNameChar c))
  if cleaned = [] then none
  else some (finalizeNewName vault cleaned ext)

/-
Port binding loops (startInternalServer lines 1453-1608, startCallbackServer
lines 1612-1805).
-/

/-- Start port of the internal HTML server (line 1454): the configured port,
or 8081 when it is 0 or missing. -/
def htmlStartPort (htmlServerPort : Option Nat) : Nat :=
  match htmlServerPort with
  | some p => if p = 0 then 8081 else p
  | none => 8081

/-- Start port of the callback server (line 1613): the configured port, or
8082 when it is 0 or missing. -/
def cbStartPort (callbackServerPort : Option Nat) : Nat :=
  match callbackServerPort with
  | some p => if p = 0 then 8082 else p
  | none => 8082

/-- The binding loop shared by both servers: while port is below the bound
and the server has not started, try to listen, incrementing the port by one
on a bind failure.  avail tells whether listening on a port succeeds; fuel
is the width of the port range, so the loop runs at most fuel times.  none
models the loop ending with serverStarted still false, after which a Notice
is shown and the plugin carries on. -/
def tryPorts (avail : Nat → Bool) : Nat → Nat → Option Nat
  | _, 0 => none
  | port, fuel + 1 => if avail port then some port else tryPorts avail (port + 1) fuel

/-- Port selection of startInternalServer: maxPort = port + 50 (line 1455). -/
def startInternalServerPort (avail : Nat → Bool) (htmlServerPort : Option Nat) : Option Nat :=
  tryPorts avail (htmlStartPort htmlServerPort) 50

/-- Port selection of startCallbackServer: maxPort = port + 1000 (line 1614). -/
def startCallbackServerPort (avail : Nat → Bool) (callbackServerPort : Option Nat) : Option Nat :=
  tryPorts avail (cbStartPort callbackServerPort) 1000

/-
Shared helper lemmas.
-/

/-- Every branch of the body-processing logic replies with the plain
acknowledgement. -/
theorem processData_response_eq (env : CallbackEnv) (d : ParsedBody) :
    (processData env d).response = ackResp := by
  simp only [processData]
  repeat first
  | rfl
  | split

/-- When the save conditions all hold, the vault after the callback is the
pointwise overwrite of the resolved path with the fetched bytes. -/
theorem processData_saves (env : CallbackEnv) (d : ParsedBody) (u k p : Str)
    (bytes : List Nat)
    (hstat : coerceStatus d.status = 2 ∨ coerceStatus d.status = 6 ∨ coerceStatus d.status = 0)
    (hu : d.url = some u) (hut : truthy (some u) = true)
    (hk : d.key = some k) (hkt : truthy (some k) = true)
    (hres : resolveKey env.keyFileMap k = some p)
    (hv : (env.vault p).isSome = true)
    (hf : env.fetch u = some bytes) :
    (processData env d).vault = vaultWrite env.vault p bytes := by
  rcases hstat with h | h | h <;>
    simp [processData, h, hu, hk, hkt, hut, hres, hv, hf]

/-- The vault after processData is either untouched or a single overwrite of
a path that named an existing file, with bytes fetched from the body URL. -/
theorem processData_vault_cases (env : CallbackEnv) (d : ParsedBody) :
    (processData env d).vault = env.vault
    ∨ ∃ p bytes, (env.vault p).isSome = true
        ∧ env.fetch (d.url.getD []) = some bytes
        ∧ (processData env d).vault = vaultWrite env.vault p bytes := by
  simp only [processData]
  repeat first
  | exact Or.inl rfl
  | (refine Or.inr ⟨_, _, ?_, ?_, rfl⟩ <;> assumption)
  | split

/-- First-fit characterization of the port binding loop: a found port lies in
the attempted range, is available, and every earlier port in the range was
unavailable. -/
theorem tryPorts_some_spec (avail : Nat → Bool) :
    ∀ fuel start p, tryPorts avail start fuel = some p →
      start ≤ p ∧ p < start + fuel ∧ avail p = true
        ∧ ∀ q, start ≤ q → q < p → avail q = false := by
  intro fuel
  induction fuel with
  | zero => intro start p h; exact absurd h (by simp [tryPorts])
  | succ f ih =>
    intro start p h
    unfold tryPorts at h
    split at h
    · cases h
      refine ⟨Nat.le_refl _, by omega, by assumption, ?_⟩
      intro q hq1 hq2
      omega
    · have hres := ih (start + 1) p h
      refine ⟨by omega, by omega, hres.2.2.1, ?_⟩
      intro q hq1 hq2
      rcases Nat.eq_or_lt_of_le hq1 with heq | hlt
      · rw [← heq]
        simpa using (by assumption : ¬ avail start = true)
      · exact hres.2.2.2 q hlt hq2

/-- When the loop exhausts its range, every port in the range was
unavailable. -/
theorem tryPorts_none_spec (avail : Nat → Bool) :
    ∀ fuel start, tryPorts avail start fuel = none →
      ∀ q, start ≤ q → q < start + fuel → avail q = false := by
  intro fuel
  induction fuel with
  | zero => intro start _ q h1 h2; omega
  | succ f ih =>
    intro start h q hq1 hq2
    unfold tryPorts at h
    split at h
    · cases h
    · rcases Nat.eq_or_lt_of_le hq1 with heq | hlt
      · rw [← heq]
        simpa using (by assumption : ¬ avail start = true)
      · exact ih (start + 1) h q hlt (by omega)

/-
Claim theorems.
-/

/-- Concrete environment exhibiting the missing containment check: the vault
root is /home/user/vault, the plugin root lies under it, and the filesystem
holds one regular file at /etc/passwd, outside both roots. -/
def travServerEnv : ServerEnv :=
  { vaultPath := ["home".toList, "user".toList, "vault".toList],
    pluginPath := ["home".toList, "user".toList, "vault".toList, ".obsidian".toList,
      "plugins".toList, "onlyoffice".toList],
    fs := fun p => if p = ["etc".toList, "passwd".toList] then some [82, 79, 79, 84] else none }

/-- A traversal request URL made of parent-directory segments. -/
def travUrl : Str := "/../../../../../../etc/passwd".toList

/-- C1: the claim says a file request whose decoded, query-stripped path
normalizes outside both the vault root and the plugin root is never answered
with file contents.  The fallthrough branch of startInternalServer joins the
decoded path onto each root with path.join and serves whatever regular file
exists there, with no containment check, so a parent-directory traversal
that normalizes to /etc/passwd — outside both roots — is served with the
file bytes.  This evaluates the embedded handler at that failing input. -/
theorem C1_traversal_is_served :
    requestTarget travServerEnv.vaultPath travUrl = some ["etc".toList, "passwd".toList]
    ∧ requestTarget travServerEnv.pluginPath travUrl = some ["etc".toList, "passwd".toList]
    ∧ isWithin travServerEnv.vaultPath ["etc".toList, "passwd".toList] = false
    ∧ isWithin travServerEnv.pluginPath ["etc".toList, "passwd".toList] = false
    ∧ serveStatic travServerEnv travUrl = StaticResponse.fileOk [82, 79, 79, 84] :=
  ⟨rfl, rfl, rfl, rfl, rfl⟩

/-- C3: every POST /callback body — unparsable bodies and bodies whose key
resolves to nothing included — is answered with HTTP 200 and the JSON body
with error 0 and no info field; no branch of the handler propagates an
error to the sender. -/
theorem C3_callback_always_acknowledges (env : CallbackEnv) (b : BodyParse) :
    (handleCallback env b).response = ackResp
    ∧ ackResp.status = 200 ∧ ackResp.errorField = 0 ∧ ackResp.hasInfo = false := by
  refine ⟨?_, rfl, rfl, rfl⟩
  cases b with
  | json d => exact processData_response_eq env d
  | form d => exact processData_response_eq env d
  | unparsed => rfl

/-- Concrete counterexample environment for the status-trigger claim. -/
def c2Env : CallbackEnv :=
  { keyFileMap := [("k1".toList, "a.docx".toList)],
    vault := fun p => if p = "a.docx".toList then some [1] else none,
    fetch := fun u => if u = "http://oo/out.bin".toList then some [9, 9] else none,
    urlKey := fun _ => none }

/-- A callback body whose status field is absent. -/
def c2Body : ParsedBody :=
  { status := none, url := some "http://oo/out.bin".toList, key := some "k1".toList }

/-- C2 counterexample: the claim says a callback with a missing status is
acknowledged but never causes any file to be overwritten.  The code coerces
a missing status with parseInt(data.status) || 0 to 0, and 0 is in the
trigger set of line 1666, so this callback with no status field at all
overwrites a.docx. -/
theorem C2_missing_status_still_overwrites :
    c2Body.status = none
    ∧ c2Env.vault "a.docx".toList = some [1]
    ∧ (processData c2Env c2Body).vault "a.docx".toList = some [9, 9] :=
  ⟨rfl, rfl, rfl⟩

/-- C2 (amended): the fetch-and-overwrite path runs exactly when the coerced
status — parseInt of the status field, 0 when missing or non-numeric — is 2,
6 or 0 and the url field is truthy; a callback whose status coerces to any
other value, or without a url, is acknowledged and never changes any file. -/
theorem C2_trigger_condition_amended (env : CallbackEnv) (d : ParsedBody) :
    (¬ ((coerceStatus d.status = 2 ∨ coerceStatus d.status = 6 ∨ coerceStatus d.status = 0)
        ∧ truthy d.url = true) → (processData env d).vault = env.vault)
    ∧ (∀ u k p bytes,
        (coerceStatus d.status = 2 ∨ coerceStatus d.status = 6 ∨ coerceStatus d.status = 0) →
        d.url = some u → truthy (some u) = true →
        d.key = some k → truthy (some k) = true →
        resolveKey env.keyFileMap k = some p →
        (env.vault p).isSome = true →
        env.fetch u = some bytes →
        (processData env d).vault p = some bytes) := by
  constructor
  · intro hneg
    simp only [processData]
    rw [if_neg hneg]
  · intro u k p bytes hstat hu hut hk hkt hres hv hf
    rw [processData_saves env d u k p bytes hstat hu hut hk hkt hres hv hf]
    simp [vaultWrite]

/-- Witness for the amended C2 theorem: a status 6 callback at a concrete
environment does overwrite the registered file. -/
def c2wEnv : CallbackEnv :=
  { keyFileMap := [("k2".toList, "b.xlsx".toList)],
    vault := fun p => if p = "b.xlsx".toList then some [2] else none,
    fetch := fun u => if u = "http://oo/v2.bin".toList then some [7, 7, 7] else none,
    urlKey := fun _ => none }

/-- The concrete body used by the C2 witness. -/
def c2wBody : ParsedBody :=
  { status := some "6".toList, url := some "http://oo/v2.bin".toList, key := some "k2".toList }

/-- Closed witness instantiating the amended C2 theorem. -/
theorem C2_trigger_condition_amended_witness :
    (processData c2wEnv c2wBody).vault "b.xlsx".toList = some [7, 7, 7] :=
  (C2_trigger_condition_amended c2wEnv c2wBody).2 "http://oo/v2.bin".toList "k2".toList
    "b.xlsx".toList [7, 7, 7] (Or.inr (Or.inl rfl)) rfl rfl rfl rfl rfl rfl rfl

/-- Taking nine characters of a list headed by the generated-key marker. -/
theorem take9_oo (t : Str) :
    ('o' :: 'o' :: '_' :: t).take 9 = 'o' :: 'o' :: '_' :: t.take 6 := rfl

/-- The legacy matcher rejects every string that starts with the generated
oo marker, because the legacy pattern demands the obsidian marker. -/
theorem legacyDecode_oo_head (t : Str) : legacyDecode ('o' :: 'o' :: '_' :: t) = none := by
  unfold legacyDecode
  rw [if_neg]
  intro h
  rw [take9_oo] at h
  rw [show obsidianMarker = 'o' :: 'b' :: 's' :: 'i' :: 'd' :: 'i' :: 'a' :: 'n' :: '_' :: []
    from rfl] at h
  injection h with h1 h2
  injection h2 with h3 h4
  exact absurd h3 (by decide)

/-- C10: every key generated on document open has the literal form of the oo
marker, the base-36 rolling hash, an underscore and the random suffix; such
a key never matches the legacy obsidian pattern, so resolving it in the
callback path is exactly the in-memory registry lookup — the legacy
path-decoding fallback can never produce a path for it. -/
theorem C10_generated_keys_resolve_only_via_registry
    (path : Str) (mtime : Nat) (rid : Str) (m : KeyFileMap) :
    genKey path mtime rid
      = "oo_".toList ++ toBase36 (jsHash (baseForKey path mtime rid)) ++ '_' :: rid
    ∧ legacyDecode (genKey path mtime rid) = none
    ∧ resolveKey m (genKey path mtime rid) = lookupKey m (genKey path mtime rid) := by
  refine ⟨rfl, ?_, ?_⟩
  · exact legacyDecode_oo_head _
  · unfold resolveKey
    cases h : lookupKey m (genKey path mtime rid) with
    | some p => rfl
    | none => exact legacyDecode_oo_head _

/-- Lookup immediately after a registration finds the registered path. -/
theorem lookupKey_register_self (m : KeyFileMap) (k p : Str) :
    lookupKey (register m k p) k = some p := by
  unfold lookupKey register
  rw [List.find?_cons_of_pos _ (by simp)]

/-- Registering a different key leaves a lookup unchanged. -/
theorem lookupKey_register_other (m : KeyFileMap) (k k2 p2 : Str) (h : k2 ≠ k) :
    lookupKey (register m k2 p2) k = lookupKey m k := by
  unfold lookupKey register
  rw [List.find?_cons_of_neg _ (by simp [h])]

/-- A registered binding survives any sequence of later registrations on
other keys. -/
theorem lookupKey_applyRegisters (rs : List (Str × Str)) :
    ∀ m : KeyFileMap, ∀ k p : Str, lookupKey m k = some p →
      (∀ e ∈ rs, e.1 ≠ k) → lookupKey (applyRegisters rs m) k = some p := by
  induction rs with
  | nil => intro m k p h _; exact h
  | cons r rs ih =>
    intro m k p h hrs
    have hr : r.1 ≠ k := hrs r (List.mem_cons_self r rs)
    have hstep : lookupKey (register m r.1 r.2) k = some p := by
      rw [lookupKey_register_other m k r.1 r.2 hr]; exact h
    exact ih (register m r.1 r.2) k p hstep (fun e he => hrs e (List.mem_cons_of_mem r he))

/-- Structure of a successful legacy match: the key splits into the obsidian
marker, a nonempty lazy group of non-line-terminator characters, an
underscore, a nonempty digit run, an underscore and a nonempty lowercase
alphanumeric run, and the produced path is the percent-decoding of the
group. -/
theorem legacyDecode_some_split (k q : Str) (h : legacyDecode k = some q) :
    ∃ g d a : Str,
      k = obsidianMarker ++ g ++ '_' :: d ++ '_' :: a
      ∧ g ≠ [] ∧ g.all isDotChar = true
      ∧ d ≠ [] ∧ d.all isDigitC = true
      ∧ a ≠ [] ∧ a.all isLowerAlnum = true
      ∧ percentDecode g = some q := by
  unfold legacyDecode at h
  split at h
  case isFalse => exact absurd h (by simp)
  case isTrue hpre =>
    simp only [] at h
    set s := k.drop 9 with hs
    cases hfind : (List.range (s.length + 1)).find? (fun i =>
        decide (1 ≤ i) && (s.take i).all isDotChar && tailMatch (s.drop i)) with
    | none => rw [hfind] at h; exact absurd h (by simp)
    | some i =>
      rw [hfind] at h
      have hpred := List.find?_some hfind
      simp only [Bool.and_eq_true, decide_eq_true_eq] at hpred
      obtain ⟨⟨hi1, hdot⟩, htail⟩ := hpred
      cases hdrop : s.drop i with
      | nil => rw [hdrop] at htail; exact absurd htail (by simp [tailMatch])
      | cons c w =>
        rw [hdrop] at htail
        unfold tailMatch at htail
        simp only [Bool.and_eq_true, decide_eq_true_eq, List.any_eq_true] at htail
        obtain ⟨hc, j, hjmem, hj⟩ := htail
        revert hj
        cases hwdrop : w.drop j with
        | nil =>
          intro hj
          simp at hj
        | cons c2 a =>
          intro hj
          simp only [Bool.and_eq_true, decide_eq_true_eq] at hj
          obtain ⟨⟨hj1, hdig⟩, ⟨hc2, hane⟩, halnum⟩ := hj
          refine ⟨s.take i, w.take j, a, ?_, ?_, hdot, ?_, hdig, ?_, halnum, h⟩
          · have hk : k = k.take 9 ++ s := by rw [hs]; exact (List.take_append_drop 9 k).symm
            have hweq : w = w.take j ++ '_' :: a := by
              conv_lhs => rw [← List.take_append_drop j w]
              rw [hwdrop, hc2]
            have hseq : s = s.take i ++ '_' :: w := by
              conv_lhs => rw [← List.take_append_drop i s]
              rw [hdrop, hc]
            conv_lhs => rw [hk, hpre, hseq, hweq]
            simp
          · intro hnil
            rw [List.take_eq_nil_iff] at hnil
            rcases hnil with h0 | hsnil
            · omega
            · rw [hsnil] at hdrop; simp at hdrop
          · intro hnil
            rw [List.take_eq_nil_iff] at hnil
            rcases hnil with h0 | hwnil
            · omega
            · rw [hwnil] at hwdrop; simp at hwdrop
          · simpa using hane

/-- C4: a key-path pair registered on document open resolves to that path
through any sequence of later registrations on other keys (the registry is
never pruned, so this holds for the rest of the process); an unregistered
key falls through to the legacy matcher, which yields a path only by the
obsidian pattern, percent-decoding the captured lazy group. -/
theorem C4_registry_resolution (m : KeyFileMap) (k p q : Str) (rs : List (Str × Str))
    (hrs : ∀ e ∈ rs, e.1 ≠ k) :
    resolveKey (applyRegisters rs (register m k p)) k = some p
    ∧ (lookupKey m k = none → resolveKey m k = legacyDecode k)
    ∧ (legacyDecode k = some q → ∃ g d a : Str,
        k = obsidianMarker ++ g ++ '_' :: d ++ '_' :: a
        ∧ g ≠ [] ∧ g.all isDotChar = true
        ∧ d ≠ [] ∧ d.all isDigitC = true
        ∧ a ≠ [] ∧ a.all isLowerAlnum = true
        ∧ percentDecode g = some q) := by
  refine ⟨?_, ?_, legacyDecode_some_split k q⟩
  · have hl := lookupKey_applyRegisters rs (register m k p) k p
      (lookupKey_register_self m k p) hrs
    unfold resolveKey
    rw [hl]
  · intro hnone
    unfold resolveKey
    rw [hnone]

/-- Closed witness instantiating the C4 theorem: a registered key keeps its
path across a later registration, and a legacy key decodes by pattern. -/
theorem C4_registry_resolution_witness :
    resolveKey (applyRegisters [("kB".toList, "b.docx".toList)]
        (register [] "kA".toList "a.docx".toList)) "kA".toList = some "a.docx".toList
    ∧ legacyDecode "obsidian_Notes%2Freport.docx_123_ab".toList
        = some "Notes/report.docx".toList :=
  ⟨(C4_registry_resolution [] "kA".toList "a.docx".toList []
      [("kB".toList, "b.docx".toList)] (by decide)).1,
   rfl⟩

/-- C5: with a configured secret and request tokens enabled, the claim set of
the signed configuration token holds exactly the token-bearing URLs — the
request token was appended to the document, callback, create and save-as
URLs before SignJWT ran — and the configuration handed to the editor by the
init script carries those same URLs, whatever the signed token value is, so
no URL is mutated after signing. -/
theorem C5_token_appended_before_signing (s : SignSettings) (requestToken : Str)
    (base : UrlSet) (signedToken : Option Str)
    (hsec : s.jwtSecret ≠ [] ∧ trimJS s.jwtSecret ≠ [])
    (hreq : s.useRequestToken ≠ some false) :
    ∃ pl : JwtPayload,
      (buildAndSign s requestToken base).signedPayload = some pl
      ∧ pl.urls = appendAllUrls requestToken base
      ∧ pl.urls.documentUrl = appendTokenParam requestToken base.documentUrl
      ∧ pl.urls.callbackUrl = appendTokenParam requestToken base.callbackUrl
      ∧ pl.urls.createUrl = appendTokenParam requestToken base.createUrl
      ∧ pl.urls.saveAsUrl = appendTokenParam requestToken base.saveAsUrl
      ∧ (applyInitScript (buildAndSign s requestToken base) signedToken).urls = pl.urls
      ∧ (applyInitScript (buildAndSign s requestToken base) signedToken).token
          = signedToken := by
  refine ⟨{ urls := appendAllUrls requestToken base }, ?_, rfl, rfl, rfl, rfl, rfl, ?_, ?_⟩
  · unfold buildAndSign
    rw [if_pos hsec, if_pos hreq]
  · unfold applyInitScript buildAndSign
    rw [if_pos hsec, if_pos hreq]
  · unfold applyInitScript
    rfl

/-- Concrete settings for the C5 witness. -/
def c5Settings : SignSettings :=
  { jwtSecret := "secret".toList, useRequestToken := some true }

/-- Concrete base URLs for the C5 witness, built the way baseConfig builds
them for local server port 8081. -/
def c5Base : UrlSet :=
  mkBaseUrls 8081 "http://host.docker.internal:8081/Notes/report.docx".toList
    "http://host.docker.internal:8082/callback".toList "word".toList

/-- Closed witness instantiating the C5 theorem at concrete settings. -/
theorem C5_token_appended_before_signing_witness :
    ∃ pl : JwtPayload,
      (buildAndSign c5Settings "tok".toList c5Base).signedPayload = some pl
      ∧ pl.urls = appendAllUrls "tok".toList c5Base
      ∧ pl.urls.documentUrl = appendTokenParam "tok".toList c5Base.documentUrl
      ∧ pl.urls.callbackUrl = appendTokenParam "tok".toList c5Base.callbackUrl
      ∧ pl.urls.createUrl = appendTokenParam "tok".toList c5Base.createUrl
      ∧ pl.urls.saveAsUrl = appendTokenParam "tok".toList c5Base.saveAsUrl
      ∧ (applyInitScript (buildAndSign c5Settings "tok".toList c5Base)
          (some "signed".toList)).urls = pl.urls
      ∧ (applyInitScript (buildAndSign c5Settings "tok".toList c5Base)
          (some "signed".toList)).token = some "signed".toList :=
  C5_token_appended_before_signing c5Settings "tok".toList c5Base (some "signed".toList)
    ⟨by decide, by decide⟩ (by decide)

/-- C6: a status 2 callback with a resolvable key, an existing target file
and a fetchable url replaces the file bytes with the fetched bytes, and a
second identical callback overwrites again with the same bytes, leaving
every vault entry as after the first — repeating the same callback is
idempotent. -/
theorem C6_repeated_save_idempotent (env : CallbackEnv) (d : ParsedBody)
    (u k p : Str) (old bytes : List Nat)
    (hst : d.status = some ['2'])
    (hu : d.url = some u) (hut : truthy (some u) = true)
    (hk : d.key = some k) (hkt : truthy (some k) = true)
    (hres : resolveKey env.keyFileMap k = some p)
    (hv : env.vault p = some old)
    (hf : env.fetch u = some bytes) :
    (processData env d).vault p = some bytes
    ∧ (processData { env with vault := (processData env d).vault } d).vault p = some bytes
    ∧ ∀ q, (processData { env with vault := (processData env d).vault } d).vault q
        = (processData env d).vault q := by
  have hstat : coerceStatus d.status = 2 ∨ coerceStatus d.status = 6
      ∨ coerceStatus d.status = 0 := Or.inl (by rw [hst]; rfl)
  have h1 : (processData env d).vault = vaultWrite env.vault p bytes :=
    processData_saves env d u k p bytes hstat hu hut hk hkt hres (by rw [hv]; rfl) hf
  have h2 : (processData { env with vault := (processData env d).vault } d).vault
      = vaultWrite (processData env d).vault p bytes := by
    refine processData_saves _ d u k p bytes hstat hu hut hk hkt hres ?_ hf
    rw [h1]
    simp [vaultWrite]
  refine ⟨by rw [h1]; simp [vaultWrite], by rw [h2]; simp [vaultWrite], ?_⟩
  intro q
  rw [h2, h1]
  by_cases hq : q = p <;> simp [vaultWrite, hq]

/-- Concrete environment for the C6 witness. -/
def c6Env : CallbackEnv :=
  { keyFileMap := [("k6".toList, "n.pptx".toList)],
    vault := fun p => if p = "n.pptx".toList then some [3, 3] else none,
    fetch := fun u => if u = "http://oo/n.bin".toList then some [4, 5, 6] else none,
    urlKey := fun _ => none }

/-- The concrete status 2 body used by the C6 witness. -/
def c6Body : ParsedBody :=
  { status := some "2".toList, url := some "http://oo/n.bin".toList, key := some "k6".toList }

/-- Closed witness instantiating the C6 theorem. -/
theorem C6_repeated_save_idempotent_witness :
    (processData c6Env c6Body).vault "n.pptx".toList = some [4, 5, 6]
    ∧ (processData { c6Env with vault := (processData c6Env c6Body).vault } c6Body).vault
        "n.pptx".toList = some [4, 5, 6] := by
  have h := C6_repeated_save_idempotent c6Env c6Body "http://oo/n.bin".toList "k6".toList
    "n.pptx".toList [3, 3] [4, 5, 6] rfl rfl rfl rfl rfl rfl rfl rfl
  exact ⟨h.1, h.2.1⟩

/-- C9: the callback receiver always acknowledges, never creates a vault
entry that did not exist, only ever changes the bytes of a path that already
named a file, and leaves the whole vault untouched when the fetch of the
body URL does not come back 200 with a body. -/
theorem C9_only_overwrites_existing (env : CallbackEnv) (b : BodyParse) :
    (handleCallback env b).response = ackResp
    ∧ (∀ q, env.vault q = none → (handleCallback env b).vault q = none)
    ∧ (∀ q, (handleCallback env b).vault q ≠ env.vault q →
        ∃ bytes, env.vault q ≠ none ∧ (handleCallback env b).vault q = some bytes)
    ∧ (∀ d, (b = BodyParse.json d ∨ b = BodyParse.form d) →
        env.fetch (d.url.getD []) = none → (handleCallback env b).vault = env.vault) := by
  refine ⟨?_, ?_, ?_, ?_⟩
  · cases b with
    | json d => exact processData_response_eq env d
    | form d => exact processData_response_eq env d
    | unparsed => rfl
  · intro q hq
    cases b with
    | json d =>
      rcases processData_vault_cases env d with h | ⟨p, bytes, hvp, _, hw⟩
      · show (processData env d).vault q = none
        rw [h]; exact hq
      · show (processData env d).vault q = none
        rw [hw]
        unfold vaultWrite
        by_cases hqq : q = p
        · rw [hqq] at hq; rw [hq] at hvp; simp at hvp
        · simp [hqq, hq]
    | form d =>
      rcases processData_vault_cases env d with h | ⟨p, bytes, hvp, _, hw⟩
      · show (processData env d).vault q = none
        rw [h]; exact hq
      · show (processData env d).vault q = none
        rw [hw]
        unfold vaultWrite
        by_cases hqq : q = p
        · rw [hqq] at hq; rw [hq] at hvp; simp at hvp
        · simp [hqq, hq]
    | unparsed => exact hq
  · intro q hne
    cases b with
    | json d =>
      rcases processData_vault_cases env d with h | ⟨p, bytes, hvp, _, hw⟩
      · exact absurd (congrFun (show (processData env d).vault = env.vault from h) q) hne
      · have hwq := congrFun hw q
        by_cases hqq : q = p
        · refine ⟨bytes, ?_, ?_⟩
          · rw [hqq]; intro hc; rw [hc] at hvp; simp at hvp
          · show (processData env d).vault q = some bytes
            rw [hwq]; simp [vaultWrite, hqq]
        · exact absurd (by rw [show (handleCallback env (BodyParse.json d)).vault q
              = (processData env d).vault q from rfl, hwq]; simp [vaultWrite, hqq]) hne
    | form d =>
      rcases processData_vault_cases env d with h | ⟨p, bytes, hvp, _, hw⟩
      · exact absurd (congrFun (show (processData env d).vault = env.vault from h) q) hne
      · have hwq := congrFun hw q
        by_cases hqq : q = p
        · refine ⟨bytes, ?_, ?_⟩
          · rw [hqq]; intro hc; rw [hc] at hvp; simp at hvp
          · show (processData env d).vault q = some bytes
            rw [hwq]; simp [vaultWrite, hqq]
        · exact absurd (by rw [show (handleCallback env (BodyParse.form d)).vault q
              = (processData env d).vault q from rfl, hwq]; simp [vaultWrite, hqq]) hne
    | unparsed => exact absurd rfl hne
  · intro d hb hfetch
    cases b with
    | json d0 =>
      rcases hb with hb | hb
      · cases hb
        rcases processData_vault_cases env d with h | ⟨p, bytes, _, hf2, _⟩
        · exact h
        · rw [hfetch] at hf2; cases hf2
      · cases hb
    | form d0 =>
      rcases hb with hb | hb
      · cases hb
      · cases hb
        rcases processData_vault_cases env d with h | ⟨p, bytes, _, hf2, _⟩
        · exact h
        · rw [hfetch] at hf2; cases hf2
    | unparsed => cases hb <;> simp_all

/-- Concrete environment for the C9 witness: an empty vault. -/
def c9Env : CallbackEnv :=
  { keyFileMap := [], vault := fun _ => none, fetch := fun _ => none, urlKey := fun _ => none }

/-- Closed witness instantiating the C9 theorem: on an empty vault no path
springs into existence. -/
theorem C9_only_overwrites_existing_witness :
    (handleCallback c9Env BodyParse.unparsed).vault "ghost.docx".toList = none :=
  (C9_only_overwrites_existing c9Env BodyParse.unparsed).2.1 "ghost.docx".toList rfl

/-- C7: the claim says a create-new request with name N and type T where N.T
exists yields the file N (1).T.  The extension regex of line 1361 is built
from a template literal in which the backslash-dot escape collapses to a
plain dot, so the compiled pattern treats that dot as a wildcard: the name
Reportdocx (no dot) ends in tdocx, matches the pattern, gets no extension
appended, never collides with the existing Reportdocx.docx, and the created
file is plain Reportdocx instead of the Reportdocx (1).docx the claim
requires.  The first conjuncts evaluate the embedded naming pipeline at the
failing input; the last shows the intended suffixing does fire for a name
the wildcard does not bite, so the claim was right about the intent. -/
theorem C7_extension_regex_wildcard_bug :
    ("Reportdocx.docx".toList ∈ (["Reportdocx.docx".toList] : List Str))
    ∧ extRegexTest "Reportdocx".toList "docx".toList = true
    ∧ newDocumentName ["Reportdocx.docx".toList] "Reportdocx".toList "docx".toList
        = some "Reportdocx".toList
    ∧ newDocumentName ["Reportdocx.docx".toList] "Reportdocx".toList "docx".toList
        ≠ some "Reportdocx (1).docx".toList
    ∧ newDocumentName ["Draft.xlsx".toList] "Draft".toList "xlsx".toList
        = some "Draft (1).xlsx".toList := by
  refine ⟨by decide, rfl, rfl, by decide, rfl⟩

/-- C8: both binding loops start at the configured port — the default 8081
or 8082 when the setting is 0 or absent — and walk the ports one by one: a
returned port is the first available one in the bounded range (50 ports for
the HTML server, 1000 for the callback server), and when the loop gives
none — after which the code shows a Notice and carries on — every port of
the range was unavailable.  The loop functions are total, so the loops
terminate after at most the bounded number of attempts. -/
theorem C8_port_binding_bounded_first_fit (avail : Nat → Bool) (hp cp : Option Nat) :
    (∀ p, startInternalServerPort avail hp = some p →
        htmlStartPort hp ≤ p ∧ p < htmlStartPort hp + 50 ∧ avail p = true
        ∧ ∀ q, htmlStartPort hp ≤ q → q < p → avail q = false)
    ∧ (startInternalServerPort avail hp = none →
        ∀ q, htmlStartPort hp ≤ q → q < htmlStartPort hp + 50 → avail q = false)
    ∧ (∀ p, startCallbackServerPort avail cp = some p →
        cbStartPort cp ≤ p ∧ p < cbStartPort cp + 1000 ∧ avail p = true
        ∧ ∀ q, cbStartPort cp ≤ q → q < p → avail q = false)
    ∧ (startCallbackServerPort avail cp = none →
        ∀ q, cbStartPort cp ≤ q → q < cbStartPort cp + 1000 → avail q = false) := by
  refine ⟨?_, ?_, ?_, ?_⟩
  · intro p h
    exact tryPorts_some_spec avail 50 (htmlStartPort hp) p h
  · intro h
    exact tryPorts_none_spec avail 50 (htmlStartPort hp) h
  · intro p h
    exact tryPorts_some_spec avail 1000 (cbStartPort cp) p h
  · intro h
    exact tryPorts_none_spec avail 1000 (cbStartPort cp) h

/-- The availability oracle of the C8 witness: only port 8083 binds. -/
def c8Avail : Nat → Bool := fun p => decide (p = 8083)

/-- Closed witness instantiating the C8 theorem: with a setting of 0 the
HTML loop starts at 8081 and lands on 8083, the first available port. -/
theorem C8_port_binding_bounded_first_fit_witness :
    8081 ≤ 8083 ∧ c8Avail 8083 = true ∧ c8Avail 8081 = false := by
  have h := (C8_port_binding_bounded_first_fit c8Avail (some 0) (some 0)).1 8083 rfl
  exact ⟨h.1, h.2.2.1, h.2.2.2 8081 (by decide) (by decide)⟩

end OnlyOffice
